import Mathlib

/-!
Shallow embedding of the github-commit MCP server (src/src/index.ts, plus the
earlier stdio variant of the same server) and proofs about its behavior.

External collaborators (the GitHub REST API, the git/shell toolchain, and the
SDK transport object) are modelled as explicit oracle parameters; everything
the repository's own code does (argument truthiness checks, command-string
construction, error-message mapping, the session-transport registry, the
shutdown sequence) is translated directly from the source.
-/

namespace GithubCommitMcp

/-! ## Shell-level string helpers -/

/-- Word-splitting as performed by the shell on the command line handed to
`exec` (the source interpolates unquoted arguments into a single command
string, e.g. `git add ${files.join(' ')}`): maximal runs of non-space
characters become the argument words. Accumulator carries the current word
reversed. -/
def splitWordsAux (acc : List Char) : List Char → List (List Char)
  | [] => if acc = [] then [] else [acc.reverse]
  | c :: cs =>
    if c = ' ' then
      if acc = [] then splitWordsAux [] cs else acc.reverse :: splitWordsAux [] cs
    else splitWordsAux (c :: acc) cs

/-- Split a character list into space-separated words. -/
def splitWords (cs : List Char) : List (List Char) := splitWordsAux [] cs

/-- Argument words of a shell command string. -/
def wordsOf (cmd : String) : List String := (splitWords cmd.data).map String.mk

/-- JavaScript `Array.prototype.join(' ')`, as used in
`git add ${files.join(' ')}` (src/src/index.ts line 273). -/
def joinSpace : List String → String
  | [] => ""
  | [f] => f
  | f :: fs => f ++ " " ++ joinSpace fs

/-- JavaScript `String.prototype.trim()`, as used on the captured
`git rev-parse HEAD` output (src/src/index.ts line 286): drop whitespace from
both ends. -/
def trimStr (s : String) : String :=
  String.mk (((s.data.dropWhile Char.isWhitespace).reverse.dropWhile Char.isWhitespace).reverse)

/-- JavaScript truthiness test on an optional string parameter: `!x` holds for
`undefined` and for the empty string. -/
def falsy : Option String → Bool
  | none => true
  | some s => s == ""

/-! ## generate-commit-message tool and commit-message prompt -/

/-- Prompt text returned by the `generate-commit-message` tool
(src/src/index.ts line 165). -/
def generateCommitMessageText (changes : String) (context : Option String) : String :=
  "Please generate a clear and descriptive commit message for the following changes:\n\n" ++
    changes ++ "\n\n" ++
    (if falsy context then "" else "Additional context:\n" ++ context.getD "")

/-- Handler of the `generate-commit-message` tool (src/src/index.ts lines
142-172). `gitStatus` is the `getGitStatus` shell oracle: for a repo path it
returns the captured `git status --porcelain` and `git diff` outputs, or
`none` when the shell command fails (the helper then throws). Every throw
inside the handler's `try` block — including the missing-argument validation
throw — is caught by the catch-all, which rethrows the generic message. -/
def generateCommitMessage (gitStatus : String → Option (String × String))
    (changes context repoPath : Option String) : Except String String :=
  let derived : Option (Option String) :=
    if falsy changes && !(falsy repoPath) then
      match gitStatus (repoPath.getD "") with
      | some (status, diff) => some (some ("Git Status:\n" ++ status ++ "\n\nDiff:\n" ++ diff))
      | none => none
    else
      some changes
  match derived with
  | none => Except.error "Failed to generate commit message. Please try again."
  | some c =>
    if falsy c then Except.error "Failed to generate commit message. Please try again."
    else Except.ok (generateCommitMessageText (c.getD "") context)

/-- Text of the single user message produced by the `commit-message` prompt
capability (src/unnamed/part_000 lines 68-83). -/
def commitMessagePromptText (changes : String) (context : Option String) : String :=
  "Please generate a clear and descriptive commit message for the following changes:\n\n" ++
    changes ++ "\n\n" ++
    (if falsy context then "" else "Additional context:\n" ++ context.getD "")

/-- A message of a prompt capability result. -/
structure PromptMessage where
  role : String
  text : String
  deriving DecidableEq

/-- Handler of the `commit-message` prompt capability
(src/unnamed/part_000 lines 68-83): a single user-role message holding the
templated text. Its declared schema requires `changes` as a string. -/
def commitMessagePrompt (changes : String) (context : Option String) : List PromptMessage :=
  [⟨"user", commitMessagePromptText changes context⟩]

/-! ## Source-host (GitHub) adapter handlers -/

/-- A commit summary as consumed from the remote listCommits call. -/
structure CommitInfo where
  sha : String
  authorName : String
  message : String
  authorDate : String
  deriving DecidableEq

/-- Formatting of one commit entry (src/src/index.ts line 86). -/
def formatCommit (c : CommitInfo) : String :=
  "Commit: " ++ c.sha ++ "\nAuthor: " ++ c.authorName ++ "\nMessage: " ++ c.message ++
    "\nDate: " ++ c.authorDate

/-- A remote API failure; `status` is the HTTP status code when the thrown
error object carries a `status` field. -/
structure ApiError where
  status : Option Nat
  deriving DecidableEq

/-- Shape of the remote listCommits call: owner, repo, optional sha/branch,
per-page limit. -/
abbrev ListCommitsApi := String → String → Option String → Nat → Except ApiError (List CommitInfo)

/-- Handler of the `github-commits` resource (src/src/index.ts lines 63-102):
validates owner/repo, fetches at most 10 commits (`per_page: 10`), formats
them in the order received; maps a remote 404 to a repository-not-found
message, a 403 to an access-denied message, anything else to a generic
message. The validation throw sits outside the `try`, so it surfaces as-is. -/
def githubCommits (listCommits : ListCommitsApi) (owner repo : String)
    (branch : Option String) : Except String (List String) :=
  if owner = "" ∨ repo = "" then
    Except.error "Owner and repository parameters are required"
  else
    match listCommits owner repo branch 10 with
    | Except.ok commits => Except.ok (commits.map formatCommit)
    | Except.error e =>
      if e.status = some 404 then
        Except.error ("Repository " ++ owner ++ "/" ++ repo ++ " not found")
      else if e.status = some 403 then
        Except.error "Access denied. Please check your GitHub token permissions"
      else
        Except.error "Failed to fetch commits. Please try again later."

/-- A pull-request summary as consumed from the remote pulls.list call. -/
structure PullInfo where
  number : Nat
  title : String
  authorLogin : String
  state : String
  createdAt : String
  updatedAt : String
  deriving DecidableEq

/-- Formatting of one pull-request entry (src/src/index.ts line 128). -/
def formatPull (pr : PullInfo) : String :=
  "PR #" ++ toString pr.number ++ ": " ++ pr.title ++ "\nAuthor: " ++ pr.authorLogin ++
    "\nStatus: " ++ pr.state ++ "\nCreated: " ++ pr.createdAt ++ "\nUpdated: " ++ pr.updatedAt

/-- Handler of the `github-pulls` resource (src/src/index.ts lines 105-136):
validates owner/repo; its catch block maps every remote failure — whatever its
status — to one fixed generic message. -/
def githubPulls (listPulls : String → String → Except ApiError (List PullInfo))
    (owner repo : String) : Except String (List String) :=
  if owner = "" ∨ repo = "" then
    Except.error "Owner and repository parameters are required"
  else
    match listPulls owner repo with
    | Except.ok pulls => Except.ok (pulls.map formatPull)
    | Except.error _ => Except.error "Failed to fetch pull requests"

/-- The payload of a successful remote merge call. -/
structure MergeResult where
  sha : String
  message : String
  deriving DecidableEq

/-- Handler of the `merge-pull-request` tool (src/src/index.ts lines 176-212).
The validation throw is inside the `try`, so the catch-all replaces it, and
every remote failure — whatever its status — becomes the same generic
message. -/
def mergePullRequest
    (apiMerge : String → String → Nat → String → Option String → Except ApiError MergeResult)
    (owner repo : String) (pullNumber : Nat) (mergeMethod commitMessage : Option String) :
    Except String String :=
  if owner = "" ∨ repo = "" ∨ pullNumber = 0 then
    Except.error "Failed to merge pull request"
  else
    match apiMerge owner repo pullNumber (mergeMethod.getD "merge") commitMessage with
    | Except.ok r =>
      Except.ok ("Pull request #" ++ toString pullNumber ++ " merged successfully.\nMerge SHA: " ++
        r.sha ++ "\nMessage: " ++ r.message)
    | Except.error _ => Except.error "Failed to merge pull request"

/-- The payload of a successful remote create-pull-request call. -/
structure CreatedPullRequest where
  number : Nat
  htmlUrl : String
  deriving DecidableEq

/-- Handler of the `create-pull-request` tool (src/src/index.ts lines
215-253). As with merge, the catch-all makes every failure — validation or
remote, whatever its status — the same generic message. -/
def createPullRequest
    (apiCreate : String → String → String → Option String → String → String →
      Except ApiError CreatedPullRequest)
    (owner repo title : String) (body : Option String) (head base : String) :
    Except String String :=
  if owner = "" ∨ repo = "" ∨ title = "" ∨ head = "" ∨ base = "" then
    Except.error "Failed to create pull request"
  else
    match apiCreate owner repo title body head base with
    | Except.ok pr =>
      Except.ok ("Pull request created successfully.\nNumber: #" ++ toString pr.number ++
        "\nURL: " ++ pr.htmlUrl)
    | Except.error _ => Except.error "Failed to create pull request"

/-! ## commit-changes tool over a small git model -/

/-- Observable git repository state for the three commands the tool issues:
the pathspecs staged by the latest `git add`, the current HEAD hash, and the
hash git will assign to the next commit. -/
structure GitRepoState where
  staged : List String
  head : String
  freshHash : String
  deriving DecidableEq

/-- Semantics of the git commands issued by the tool, at the level of the
shell command line: `git add <pathspecs>` stages exactly the argument words
(the pathspec `.` denotes the whole tree), `git commit ...` advances HEAD to
the fresh hash, `git rev-parse HEAD` prints HEAD followed by a newline. Any
other command, and `git add` with no pathspec, fails. -/
def gitRun (cmd : String) (st : GitRepoState) : Option (String × GitRepoState) :=
  match wordsOf cmd with
  | g :: verb :: args =>
    if g = "git" then
      if verb = "add" then
        if args = [] then none else some ("", { st with staged := args })
      else if verb = "commit" then
        some ("", { st with head := st.freshHash })
      else if verb = "rev-parse" then
        if args = ["HEAD"] then some (st.head ++ "\n", st) else none
      else none
    else none
  | _ => none

/-- Staging command built by the tool (src/src/index.ts lines 272-276):
named files are joined unquoted with spaces; absent or empty `files` stages
everything via `git add .`. -/
def stageCommand (files : Option (List String)) : String :=
  match files with
  | some fs => if 0 < fs.length then "git add " ++ joinSpace fs else "git add ."
  | none => "git add ."

/-- Commit command built by the tool (src/src/index.ts line 279). -/
def commitCommand (message : String) : String :=
  "git commit -m \"" ++ message ++ "\""

/-- Handler of the `commit-changes` tool (src/src/index.ts lines 256-294),
run against a shell oracle: returns the trace of commands actually issued,
the final repository state, and the result. The three steps run in order;
a failing step stops the sequence and the catch-all turns any throw —
including the missing-argument validation throw — into the generic message. -/
def commitChanges (run : String → GitRepoState → Option (String × GitRepoState))
    (st : GitRepoState) (repoPath message : String) (files : Option (List String)) :
    List String × GitRepoState × Except String String :=
  if repoPath = "" ∨ message = "" then
    ([], st, Except.error "Failed to commit changes")
  else
    let stage := stageCommand files
    match run stage st with
    | none => ([stage], st, Except.error "Failed to commit changes")
    | some (_, st1) =>
      let commit := commitCommand message
      match run commit st1 with
      | none => ([stage, commit], st1, Except.error "Failed to commit changes")
      | some (_, st2) =>
        match run "git rev-parse HEAD" st2 with
        | none =>
          ([stage, commit, "git rev-parse HEAD"], st2, Except.error "Failed to commit changes")
        | some (out, st3) =>
          ([stage, commit, "git rev-parse HEAD"], st3,
            Except.ok ("Changes committed successfully.\nCommit Hash: " ++ trimStr out))

/-! ## Session transport registry and HTTP endpoints -/

/-- The `transports` object (src/src/index.ts line 297): session id to live
transport (transports are identified by an opaque handle). Represented as an
association list whose keys are unique, mirroring a JavaScript object. -/
abbrev Transports := List (String × Nat)

/-- Property lookup `transports[sessionId]`. -/
def lookupTransport (transports : Transports) (sessionId : String) : Option Nat :=
  match transports with
  | [] => none
  | (sid, t) :: rest => if sid = sessionId then some t else lookupTransport rest sessionId

/-- Property deletion `delete transports[sessionId]`. -/
def deleteTransport : Transports → String → Transports
  | [], _ => []
  | (sid, t) :: rest, sessionId =>
    if sid = sessionId then deleteTransport rest sessionId
    else (sid, t) :: deleteTransport rest sessionId

/-- Property assignment `transports[sessionId] = transport` (overwrites any
entry under the same key, leaves others alone). -/
def storeTransport (transports : Transports) (sessionId : String) (t : Nat) : Transports :=
  (sessionId, t) :: deleteTransport transports sessionId

/-- The set (list) of registered session ids. -/
def transportKeys (transports : Transports) : List String :=
  transports.map Prod.fst

/-- Handler of `GET /sse` (src/src/index.ts lines 302-311): the SDK allocates
the transport and its session id; the handler stores it in the registry. The
`close` event later runs `deleteTransport`. -/
def sseHandler (transports : Transports) (sessionId : String) (t : Nat) : Transports :=
  storeTransport transports sessionId t

/-- Outcome of the message-submission endpoint: either the request is handed
to a stored transport (which dispatches the capability handler) or it is
answered directly with an HTTP error status and body. -/
inductive MessagesOutcome
  | dispatched (t : Nat)
  | rejected (status : Nat) (body : String)
  deriving DecidableEq

/-- Handler of `POST /messages` (src/src/index.ts lines 314-323): look the
session id up; hand the request to the stored transport, or answer 400 with
a descriptive body. -/
def messagesHandler (transports : Transports) (sessionId : String) : MessagesOutcome :=
  match lookupTransport transports sessionId with
  | some t => MessagesOutcome.dispatched t
  | none => MessagesOutcome.rejected 400 "No transport found for sessionId"

/-! ## Lifecycle controller -/

/-- Externally visible actions of the shutdown sequence. -/
inductive ShutdownAction
  | close (t : Nat)
  | exitProcess (code : Nat)
  deriving DecidableEq

/-- The `shutdown` function (src/src/index.ts lines 331-349): close every
stored transport, then `process.exit(exitCode)` (the `finally` block exits
even if closing failed). -/
def shutdown (transports : Transports) (exitCode : Nat) : List ShutdownAction :=
  (transports.map (fun p => ShutdownAction.close p.2)) ++ [ShutdownAction.exitProcess exitCode]

/-- The process-level events wired to `shutdown` (src/src/index.ts lines
352-372). -/
inductive ProcessEvent
  | sigterm
  | sigint
  | uncaughtException
  | unhandledRejection
  deriving DecidableEq

/-- The registered process-event handlers: termination signals run
`shutdown(0)`, fatal errors run `shutdown(1)`. -/
def onProcessEvent (e : ProcessEvent) (transports : Transports) : List ShutdownAction :=
  match e with
  | ProcessEvent.sigterm => shutdown transports 0
  | ProcessEvent.sigint => shutdown transports 0
  | ProcessEvent.uncaughtException => shutdown transports 1
  | ProcessEvent.unhandledRejection => shutdown transports 1

/-! ## Generic notions used by the statements -/

/-- One string occurs (contiguously) inside another. -/
def ContainsStr (s t : String) : Prop := t.data <:+: s.data

instance (s t : String) : Decidable (ContainsStr s t) := List.decidableInfix t.data s.data

instance {ε α : Type} [DecidableEq ε] [DecidableEq α] : DecidableEq (Except ε α)
  | Except.ok a, Except.ok b =>
    if h : a = b then isTrue (h ▸ rfl) else isFalse (fun hc => h (Except.ok.inj hc))
  | Except.ok _, Except.error _ => isFalse (fun hc => Except.noConfusion hc)
  | Except.error _, Except.ok _ => isFalse (fun hc => Except.noConfusion hc)
  | Except.error e, Except.error f =>
    if h : e = f then isTrue (h ▸ rfl) else isFalse (fun hc => h (Except.error.inj hc))

/-! ## Registry lemmas -/

lemma transportKeys_nil : transportKeys [] = [] := rfl

lemma transportKeys_cons (s : String) (t : Nat) (tl : Transports) :
    transportKeys ((s, t) :: tl) = s :: transportKeys tl := rfl

lemma lookupTransport_deleteTransport_ne (ts : Transports) (sid sid2 : String)
    (h : sid2 ≠ sid) :
    lookupTransport (deleteTransport ts sid) sid2 = lookupTransport ts sid2 := by
  induction ts with
  | nil => rfl
  | cons hd tl ih =>
    obtain ⟨s, t⟩ := hd
    by_cases hs : s = sid
    · subst hs
      have hss : s ≠ sid2 := fun hc => h hc.symm
      simp [deleteTransport, lookupTransport, hss, ih]
    · simp [deleteTransport, lookupTransport, hs, ih]

lemma mem_transportKeys_deleteTransport (ts : Transports) (sid k : String)
    (h : k ∈ transportKeys (deleteTransport ts sid)) : k ∈ transportKeys ts := by
  induction ts with
  | nil => exact absurd h (by simp [deleteTransport, transportKeys])
  | cons hd tl ih =>
    obtain ⟨s, t⟩ := hd
    by_cases hs : s = sid
    · simp only [deleteTransport, hs, if_pos rfl] at h
      exact (transportKeys_cons s t tl) ▸ List.mem_cons_of_mem s (ih h)
    · rw [deleteTransport] at h
      rw [if_neg hs] at h
      rw [transportKeys_cons] at h ⊢
      rcases List.mem_cons.mp h with h1 | h2
      · exact List.mem_cons.mpr (Or.inl h1)
      · exact List.mem_cons.mpr (Or.inr (ih h2))

lemma not_mem_transportKeys_deleteTransport (ts : Transports) (sid : String) :
    sid ∉ transportKeys (deleteTransport ts sid) := by
  induction ts with
  | nil => simp [deleteTransport, transportKeys]
  | cons hd tl ih =>
    obtain ⟨s, t⟩ := hd
    by_cases hs : s = sid
    · simpa [deleteTransport, hs] using ih
    · rw [deleteTransport, if_neg hs, transportKeys_cons]
      intro hmem
      rcases List.mem_cons.mp hmem with h1 | h2
      · exact hs h1.symm
      · exact ih h2

lemma nodup_transportKeys_deleteTransport (ts : Transports) (sid : String)
    (h : (transportKeys ts).Nodup) : (transportKeys (deleteTransport ts sid)).Nodup := by
  induction ts with
  | nil => simp [deleteTransport, transportKeys]
  | cons hd tl ih =>
    obtain ⟨s, t⟩ := hd
    rw [transportKeys_cons, List.nodup_cons] at h
    by_cases hs : s = sid
    · rw [deleteTransport, if_pos hs]
      exact ih h.2
    · rw [deleteTransport, if_neg hs, transportKeys_cons, List.nodup_cons]
      exact ⟨fun hc => h.1 (mem_transportKeys_deleteTransport tl sid s hc), ih h.2⟩

lemma deleteTransport_of_fresh (ts : Transports) (sid : String)
    (h : sid ∉ transportKeys ts) : deleteTransport ts sid = ts := by
  induction ts with
  | nil => rfl
  | cons hd tl ih =>
    obtain ⟨s, t⟩ := hd
    rw [transportKeys_cons] at h
    have hs : s ≠ sid := fun hc => h (hc ▸ List.mem_cons_self s (transportKeys tl))
    rw [deleteTransport, if_neg hs, ih (fun hc => h (List.mem_cons_of_mem s hc))]

lemma transportKeys_storeTransport (ts : Transports) (sid : String) (t : Nat) :
    transportKeys (storeTransport ts sid t) = sid :: transportKeys (deleteTransport ts sid) := rfl

lemma lookupTransport_storeTransport_self (ts : Transports) (sid : String) (t : Nat) :
    lookupTransport (storeTransport ts sid t) sid = some t := by
  simp [storeTransport, lookupTransport]

lemma lookupTransport_storeTransport_ne (ts : Transports) (sid sid2 : String) (t : Nat)
    (h : sid2 ≠ sid) :
    lookupTransport (storeTransport ts sid t) sid2 = lookupTransport ts sid2 := by
  have hss : sid ≠ sid2 := fun hc => h hc.symm
  simp only [storeTransport, lookupTransport, if_neg hss]
  exact lookupTransport_deleteTransport_ne ts sid sid2 h

/-! ## Claims C1, C2, C3 -/

/-- C1: a message submitted with a session id that has no entry in the
transport registry (never created or already removed) is answered with a 400
client error carrying the descriptive body, and no transport dispatch — hence
no capability handler — takes place; the request is neither dropped silently
nor queued. -/
theorem c1_unknown_session_rejected (ts : Transports) (sid : String)
    (h : lookupTransport ts sid = none) :
    messagesHandler ts sid = MessagesOutcome.rejected 400 "No transport found for sessionId" ∧
    ∀ t, messagesHandler ts sid ≠ MessagesOutcome.dispatched t := by
  constructor
  · simp [messagesHandler, h]
  · intro t
    simp [messagesHandler, h]

theorem c1_unknown_session_rejected_witness :
    messagesHandler [] "session-1" =
      MessagesOutcome.rejected 400 "No transport found for sessionId" :=
  (c1_unknown_session_rejected [] "session-1" rfl).1

/-- C2: the registry keeps at most one connection per session id (key
uniqueness is preserved by stream-open and by deletion), a stream-open with a
fresh id stores exactly one new entry (the new id is routable to the new
transport, every other id resolves as before), two opens with SDK-fresh ids
yield distinct ids, and deleting one session's entry leaves every other
session's entry routable and unchanged. -/
theorem c2_registry_one_connection_per_session :
    (∀ (ts : Transports) (sid : String) (t : Nat),
      (transportKeys ts).Nodup → (transportKeys (sseHandler ts sid t)).Nodup) ∧
    (∀ (ts : Transports) (sid : String),
      (transportKeys ts).Nodup → (transportKeys (deleteTransport ts sid)).Nodup) ∧
    (∀ (ts : Transports) (sid : String) (t : Nat), sid ∉ transportKeys ts →
      transportKeys (sseHandler ts sid t) = sid :: transportKeys ts) ∧
    (∀ (ts : Transports) (sid : String) (t : Nat),
      lookupTransport (sseHandler ts sid t) sid = some t) ∧
    (∀ (ts : Transports) (sid sid2 : String) (t : Nat), sid2 ≠ sid →
      lookupTransport (sseHandler ts sid t) sid2 = lookupTransport ts sid2) ∧
    (∀ (ts : Transports) (sid1 sid2 : String) (t1 : Nat), sid1 ∉ transportKeys ts →
      sid2 ∉ transportKeys (sseHandler ts sid1 t1) → sid1 ≠ sid2) ∧
    (∀ (ts : Transports) (sid sid2 : String), sid2 ≠ sid →
      messagesHandler (deleteTransport ts sid) sid2 = messagesHandler ts sid2) := by
  refine ⟨?_, ?_, ?_, ?_, ?_, ?_, ?_⟩
  · intro ts sid t h
    rw [sseHandler, transportKeys_storeTransport, List.nodup_cons]
    exact ⟨not_mem_transportKeys_deleteTransport ts sid,
      nodup_transportKeys_deleteTransport ts sid h⟩
  · intro ts sid h
    exact nodup_transportKeys_deleteTransport ts sid h
  · intro ts sid t h
    rw [sseHandler, transportKeys_storeTransport, deleteTransport_of_fresh ts sid h]
  · intro ts sid t
    exact lookupTransport_storeTransport_self ts sid t
  · intro ts sid sid2 t h
    exact lookupTransport_storeTransport_ne ts sid sid2 t h
  · intro ts sid1 sid2 t1 _ h2 hc
    subst hc
    exact h2 (by rw [sseHandler, transportKeys_storeTransport]; exact List.mem_cons_self _ _)
  · intro ts sid sid2 h
    rw [messagesHandler, messagesHandler, lookupTransport_deleteTransport_ne ts sid sid2 h]

theorem c2_registry_one_connection_per_session_witness :
    (transportKeys (sseHandler [("s1", 1)] "s2" 2)).Nodup ∧
    transportKeys (sseHandler [("s1", 1)] "s2" 2) = ["s2", "s1"] ∧
    lookupTransport (sseHandler [("s1", 1)] "s2" 2) "s2" = some 2 ∧
    lookupTransport (sseHandler [("s1", 1)] "s2" 2) "s1" = some 1 ∧
    ("s1" : String) ≠ "s2" ∧
    messagesHandler (deleteTransport [("s1", 1), ("s2", 2)] "s1") "s2" =
      messagesHandler [("s1", 1), ("s2", 2)] "s2" := by
  obtain ⟨hnodup, -, hfresh, hself, hother, hdistinct, hdel⟩ :=
    c2_registry_one_connection_per_session
  refine ⟨hnodup [("s1", 1)] "s2" 2 (by decide), ?_, hself [("s1", 1)] "s2" 2, ?_, ?_, ?_⟩
  · rw [hfresh [("s1", 1)] "s2" 2 (by decide)]
    rfl
  · exact (hother [("s1", 1)] "s2" "s1" 2 (by decide)).trans (by decide)
  · exact hdistinct [] "s1" "s2" 1 (by decide) (by decide)
  · exact hdel [("s1", 1), ("s2", 2)] "s1" "s2" (by decide)

/-- C3: each termination signal closes every open session's connection and
then exits with status 0; an uncaught exception or unhandled rejection runs
the same close-everything sequence and exits with status 1; in every case the
exit action comes after all the close actions. -/
theorem c3_shutdown_closes_all_then_exits (ts : Transports) :
    onProcessEvent ProcessEvent.sigterm ts =
      (ts.map fun p => ShutdownAction.close p.2) ++ [ShutdownAction.exitProcess 0] ∧
    onProcessEvent ProcessEvent.sigint ts =
      (ts.map fun p => ShutdownAction.close p.2) ++ [ShutdownAction.exitProcess 0] ∧
    onProcessEvent ProcessEvent.uncaughtException ts =
      (ts.map fun p => ShutdownAction.close p.2) ++ [ShutdownAction.exitProcess 1] ∧
    onProcessEvent ProcessEvent.unhandledRejection ts =
      (ts.map fun p => ShutdownAction.close p.2) ++ [ShutdownAction.exitProcess 1] ∧
    (∀ e, ∀ p ∈ ts, ShutdownAction.close p.2 ∈ onProcessEvent e ts) ∧
    (∀ e, (onProcessEvent e ts).getLast? =
      some (ShutdownAction.exitProcess (match e with
        | ProcessEvent.sigterm => 0
        | ProcessEvent.sigint => 0
        | ProcessEvent.uncaughtException => 1
        | ProcessEvent.unhandledRejection => 1))) := by
  refine ⟨rfl, rfl, rfl, rfl, ?_, ?_⟩
  · intro e p hp
    cases e <;>
      exact List.mem_append_left _ (List.mem_map.mpr ⟨p, hp, rfl⟩)
  · intro e
    cases e <;>
      simp [onProcessEvent, shutdown, List.getLast?_append]

theorem c3_shutdown_closes_all_then_exits_witness :
    onProcessEvent ProcessEvent.sigterm [("a", 1), ("b", 2)] =
      [ShutdownAction.close 1, ShutdownAction.close 2, ShutdownAction.exitProcess 0] ∧
    ShutdownAction.close 2 ∈ onProcessEvent ProcessEvent.uncaughtException [("a", 1), ("b", 2)] := by
  refine ⟨(c3_shutdown_closes_all_then_exits [("a", 1), ("b", 2)]).1, ?_⟩
  exact (c3_shutdown_closes_all_then_exits [("a", 1), ("b", 2)]).2.2.2.2.1
    ProcessEvent.uncaughtException ("b", 2) (by decide)

/-! ## Claims C5, C8, C9, C10 -/

/-- C5 (code bug in the source): invoking `generate-commit-message` with
neither `changes` nor `repoPath` fails, but the failure the caller sees is the
generic catch-all message, not the validation message the handler itself
constructs — the `try` block's catch-all replaces the missing-arguments throw
before it can surface. -/
theorem c5_missing_args_surface_generic_error :
    generateCommitMessage (fun _ => none) none none none =
      Except.error "Failed to generate commit message. Please try again." ∧
    generateCommitMessage (fun _ => none) none none none ≠
      Except.error "Changes parameter is required or repo path must be provided" := by
  decide

set_option maxRecDepth 8192 in
/-- C8: the tool's returned prompt for `changes="foo"` without context
contains the literal "foo" and no "Additional context" text; with
`context="bar"` it contains "foo" and "bar", the latter under the
"Additional context" section. -/
theorem c8_prompt_embeds_changes_and_context :
    generateCommitMessage (fun _ => none) (some "foo") none none =
      Except.ok (generateCommitMessageText "foo" none) ∧
    ContainsStr (generateCommitMessageText "foo" none) "foo" ∧
    ¬ ContainsStr (generateCommitMessageText "foo" none) "Additional context" ∧
    generateCommitMessage (fun _ => none) (some "foo") (some "bar") none =
      Except.ok (generateCommitMessageText "foo" (some "bar")) ∧
    ContainsStr (generateCommitMessageText "foo" (some "bar")) "foo" ∧
    ContainsStr (generateCommitMessageText "foo" (some "bar")) "bar" ∧
    ContainsStr (generateCommitMessageText "foo" (some "bar")) "Additional context:\nbar" := by
  refine ⟨by decide, by decide, by decide, by decide, by decide, by decide, by decide⟩

/-- C9: supplying `changes` as the empty string is indistinguishable from
omitting it — the JavaScript truthiness guard treats both alike: with a
`repoPath` the changes text is derived from the shell runner's status and
diff output, and with no `repoPath` the call fails; an empty supplied
`changes` string is never embedded in a returned prompt. -/
theorem c9_empty_changes_behaves_as_absent
    (gitStatus : String → Option (String × String)) (context : Option String)
    (repoPath status diff : String) (hrp : repoPath ≠ "")
    (hg : gitStatus repoPath = some (status, diff)) :
    (∀ (g : String → Option (String × String)) (c rp : Option String),
      generateCommitMessage g (some "") c rp = generateCommitMessage g none c rp) ∧
    generateCommitMessage gitStatus (some "") context (some repoPath) =
      Except.ok
        (generateCommitMessageText ("Git Status:\n" ++ status ++ "\n\nDiff:\n" ++ diff) context) ∧
    (∀ (g : String → Option (String × String)) (c : Option String),
      generateCommitMessage g (some "") c none =
        Except.error "Failed to generate commit message. Please try again.") := by
  refine ⟨?_, ?_, ?_⟩
  · intro g c rp
    cases rp with
    | none => rfl
    | some r =>
      by_cases hr : r = ""
      · subst hr
        rfl
      · have hb : (r == "") = false := beq_eq_false_iff_ne.mpr hr
        simp only [generateCommitMessage, falsy, hb]
        rfl
  · have hb : (repoPath == "") = false := beq_eq_false_iff_ne.mpr hrp
    have hne : ("Git Status:\n" ++ status ++ "\n\nDiff:\n" ++ diff) ≠ "" := by
      intro hc
      have := congrArg String.data hc
      simp [String.data_append] at this
    have hb2 : (("Git Status:\n" ++ status ++ "\n\nDiff:\n" ++ diff) == "") = false :=
      beq_eq_false_iff_ne.mpr hne
    simp only [generateCommitMessage, falsy, hb, hg, Option.getD, hb2]
    rfl
  · intro g c
    rfl

theorem c9_empty_changes_behaves_as_absent_witness :
    generateCommitMessage (fun _ => some ("S", "D")) (some "") none (some "/repo") =
      Except.ok (generateCommitMessageText ("Git Status:\nS\n\nDiff:\nD") none) :=
  (c9_empty_changes_behaves_as_absent (fun _ => some ("S", "D")) none "/repo" "S" "D"
    (by decide) rfl).2.1

/-- C10 counterexample: at `changes=""` (with no context) the tool returns no
text at all — it fails with the generic error — while the prompt capability
returns a templated user message, so the two capabilities do not produce
identical text for every changes/context pair. -/
theorem c10_counterexample_empty_changes :
    (generateCommitMessage (fun _ => none) (some "") none none).toOption ≠
      some (commitMessagePromptText "" none) ∧
    commitMessagePrompt "" none = [⟨"user", commitMessagePromptText "" none⟩] := by
  exact ⟨by decide, rfl⟩

/-- C10 (amended): for every nonempty `changes` string and optional context,
the text the `generate-commit-message` tool returns and the text of the
single user-role message produced by the `commit-message` prompt capability
are the identical string — the two capabilities implement the same template;
they differ only at `changes = ""`, which the tool rejects. -/
theorem c10_tool_and_prompt_share_template
    (gitStatus : String → Option (String × String)) (changes : String)
    (context repoPath : Option String) (h : changes ≠ "") :
    generateCommitMessage gitStatus (some changes) context repoPath =
      Except.ok (commitMessagePromptText changes context) ∧
    commitMessagePrompt changes context =
      [⟨"user", commitMessagePromptText changes context⟩] := by
  constructor
  · have hb : (changes == "") = false := beq_eq_false_iff_ne.mpr h
    simp [generateCommitMessage, falsy, hb, generateCommitMessageText, commitMessagePromptText]
  · rfl

theorem c10_tool_and_prompt_share_template_witness :
    generateCommitMessage (fun _ => none) (some "x") (some "y") none =
      Except.ok (commitMessagePromptText "x" (some "y")) :=
  (c10_tool_and_prompt_share_template (fun _ => none) "x" (some "y") none (by decide)).1

/-! ## Claims C4 and C7 -/

/-- C4 counterexample: the pulls resource surfaces a remote 404 as its fixed
generic failure message — which names neither the repository nor
"not found" — contradicting the claim that every adapter operation maps a
remote 404 to a NotFoundError-shaped failure. -/
theorem c4_counterexample_pulls_404_generic :
    githubPulls (fun _ _ => Except.error ⟨some 404⟩) "octo" "repo" =
      Except.error "Failed to fetch pull requests" ∧
    ¬ ContainsStr "Failed to fetch pull requests" "not found" ∧
    ¬ ContainsStr "Failed to fetch pull requests" "octo/repo" := by
  refine ⟨by decide, by decide, by decide⟩

/-- C4 (amended): only the commits resource maps remote failures by status —
404 to "Repository {owner}/{repo} not found" (a message naming owner/repo),
403 to an access-denied message, anything else to a generic message — while
the pulls resource, merge-pull-request and create-pull-request surface one
fixed generic failure message for every remote failure, 404 included. -/
theorem c4_status_mapping_only_for_commits (owner repo : String)
    (how : owner ≠ "") (hrw : repo ≠ "") :
    (∀ (api : ListCommitsApi) (branch : Option String) (e : ApiError),
      api owner repo branch 10 = Except.error e →
      githubCommits api owner repo branch =
        Except.error (if e.status = some 404 then
            "Repository " ++ owner ++ "/" ++ repo ++ " not found"
          else if e.status = some 403 then
            "Access denied. Please check your GitHub token permissions"
          else "Failed to fetch commits. Please try again later.")) ∧
    (∀ (api : ListCommitsApi) (branch : Option String) (e : ApiError),
      e.status = some 404 → api owner repo branch 10 = Except.error e →
      githubCommits api owner repo branch =
        Except.error ("Repository " ++ owner ++ "/" ++ repo ++ " not found") ∧
      ContainsStr ("Repository " ++ owner ++ "/" ++ repo ++ " not found")
        (owner ++ "/" ++ repo)) ∧
    (∀ (api : String → String → Except ApiError (List PullInfo)) (e : ApiError),
      api owner repo = Except.error e →
      githubPulls api owner repo = Except.error "Failed to fetch pull requests") ∧
    (∀ (api : String → String → Nat → String → Option String → Except ApiError MergeResult)
      (n : Nat) (mm cm : Option String) (e : ApiError), n ≠ 0 →
      api owner repo n (mm.getD "merge") cm = Except.error e →
      mergePullRequest api owner repo n mm cm =
        Except.error "Failed to merge pull request") ∧
    (∀ (api : String → String → String → Option String → String → String →
        Except ApiError CreatedPullRequest)
      (title : String) (body : Option String) (head base : String) (e : ApiError),
      title ≠ "" → head ≠ "" → base ≠ "" →
      api owner repo title body head base = Except.error e →
      createPullRequest api owner repo title body head base =
        Except.error "Failed to create pull request") := by
  have hv : ¬ (owner = "" ∨ repo = "") := by
    rintro (hc | hc)
    · exact how hc
    · exact hrw hc
  refine ⟨?_, ?_, ?_, ?_, ?_⟩
  · intro api branch e hapi
    simp only [githubCommits, hv, if_false, hapi]
    split_ifs <;> rfl
  · intro api branch e h404 hapi
    constructor
    · simp [githubCommits, hv, hapi, h404]
    · exact ⟨"Repository ".data, " not found".data,
        by simp [String.data_append, List.append_assoc]⟩
  · intro api e hapi
    simp [githubPulls, hv, hapi]
  · intro api n mm cm e hn hapi
    have hv2 : ¬ (owner = "" ∨ repo = "" ∨ n = 0) := by
      rintro (hc | hc | hc)
      · exact how hc
      · exact hrw hc
      · exact hn hc
    simp [mergePullRequest, hv2, hapi]
  · intro api title body head base e ht hh hb hapi
    have hv2 : ¬ (owner = "" ∨ repo = "" ∨ title = "" ∨ head = "" ∨ base = "") := by
      rintro (hc | hc | hc | hc | hc)
      · exact how hc
      · exact hrw hc
      · exact ht hc
      · exact hh hc
      · exact hb hc
    simp [createPullRequest, hv2, hapi]

theorem c4_status_mapping_only_for_commits_witness :
    githubCommits (fun _ _ _ _ => Except.error ⟨some 404⟩) "o" "r" none =
      Except.error "Repository o/r not found" ∧
    mergePullRequest (fun _ _ _ _ _ => Except.error ⟨some 404⟩) "o" "r" 7 none none =
      Except.error "Failed to merge pull request" := by
  obtain ⟨-, h404, -, hmerge, -⟩ :=
    c4_status_mapping_only_for_commits "o" "r" (by decide) (by decide)
  refine ⟨?_, ?_⟩
  · exact ((h404 (fun _ _ _ _ => Except.error ⟨some 404⟩) none ⟨some 404⟩ rfl rfl).1).trans
      (by decide)
  · exact hmerge (fun _ _ _ _ _ => Except.error ⟨some 404⟩) 7 none none ⟨some 404⟩
      (by decide) rfl

/-- C7: for valid owner/repo (and any optional branch), when the host honors
the requested page size of 10, the commits resource returns exactly the
fetched commits formatted in the order received — hence at most 10 entries,
newest-first by the host's native order with no locally imposed sort — and
each entry's text carries the commit's sha, author name, message and author
date. -/
theorem c7_commits_at_most_ten_in_host_order
    (api : ListCommitsApi) (owner repo : String) (branch : Option String)
    (how : owner ≠ "") (hrw : repo ≠ "") (cs : List CommitInfo)
    (hapi : api owner repo branch 10 = Except.ok cs) (hlim : cs.length ≤ 10) :
    githubCommits api owner repo branch = Except.ok (cs.map formatCommit) ∧
    (cs.map formatCommit).length ≤ 10 ∧
    ∀ c ∈ cs,
      ContainsStr (formatCommit c) c.sha ∧
      ContainsStr (formatCommit c) c.authorName ∧
      ContainsStr (formatCommit c) c.message ∧
      ContainsStr (formatCommit c) c.authorDate := by
  have hv : ¬ (owner = "" ∨ repo = "") := by
    rintro (hc | hc)
    · exact how hc
    · exact hrw hc
  refine ⟨by simp [githubCommits, hv, hapi], by simpa using hlim, ?_⟩
  intro c _
  refine ⟨⟨"Commit: ".data,
      ("\nAuthor: " ++ c.authorName ++ "\nMessage: " ++ c.message ++
        "\nDate: " ++ c.authorDate).data, ?_⟩,
    ⟨("Commit: " ++ c.sha ++ "\nAuthor: ").data,
      ("\nMessage: " ++ c.message ++ "\nDate: " ++ c.authorDate).data, ?_⟩,
    ⟨("Commit: " ++ c.sha ++ "\nAuthor: " ++ c.authorName ++ "\nMessage: ").data,
      ("\nDate: " ++ c.authorDate).data, ?_⟩,
    ⟨("Commit: " ++ c.sha ++ "\nAuthor: " ++ c.authorName ++ "\nMessage: " ++ c.message ++
        "\nDate: ").data, [], ?_⟩⟩ <;>
    simp [formatCommit, String.data_append, List.append_assoc]

theorem c7_commits_at_most_ten_in_host_order_witness :
    githubCommits
        (fun _ _ _ _ => Except.ok [⟨"s1", "a1", "m1", "d1"⟩, ⟨"s2", "a2", "m2", "d2"⟩])
        "o" "r" none =
      Except.ok
        ([(⟨"s1", "a1", "m1", "d1"⟩ : CommitInfo),
          ⟨"s2", "a2", "m2", "d2"⟩].map formatCommit) ∧
    ContainsStr (formatCommit ⟨"s1", "a1", "m1", "d1"⟩) "s1" := by
  have h := c7_commits_at_most_ten_in_host_order
    (fun _ _ _ _ => Except.ok [⟨"s1", "a1", "m1", "d1"⟩, ⟨"s2", "a2", "m2", "d2"⟩])
    "o" "r" none (by decide) (by decide)
    [⟨"s1", "a1", "m1", "d1"⟩, ⟨"s2", "a2", "m2", "d2"⟩] rfl (by decide)
  exact ⟨h.1, (h.2.2 ⟨"s1", "a1", "m1", "d1"⟩ (by decide)).1⟩

/-! ## Word-splitting lemmas for the commit-changes command lines -/

lemma splitWordsAux_cons_ne (c : Char) (hc : ¬ c = ' ') (acc cs : List Char) :
    splitWordsAux acc (c :: cs) = splitWordsAux (c :: acc) cs := by
  rw [splitWordsAux, if_neg hc]

lemma splitWordsAux_space (acc cs : List Char) :
    splitWordsAux acc (' ' :: cs) =
      if acc = [] then splitWordsAux [] cs else acc.reverse :: splitWordsAux [] cs := by
  rw [splitWordsAux, if_pos rfl]

lemma splitWordsAux_word_append :
    ∀ (w : List Char), ' ' ∉ w → w ≠ [] →
      ∀ (acc rest : List Char),
        splitWordsAux acc (w ++ ' ' :: rest) = (acc.reverse ++ w) :: splitWordsAux [] rest := by
  intro w
  induction w with
  | nil => intro _ hw; exact absurd rfl hw
  | cons c cs ih =>
    intro hsp _ acc rest
    have hc : ¬ c = ' ' := fun h => hsp (h ▸ List.mem_cons_self c cs)
    cases cs with
    | nil =>
      simp only [List.cons_append, List.nil_append]
      rw [splitWordsAux_cons_ne c hc, splitWordsAux_space,
        if_neg (List.cons_ne_nil c acc)]
      simp
    | cons d ds =>
      have hsp2 : ' ' ∉ d :: ds := fun h => hsp (List.mem_cons_of_mem c h)
      rw [List.cons_append, splitWordsAux_cons_ne c hc]
      rw [ih hsp2 (List.cons_ne_nil d ds) (c :: acc) rest]
      simp

lemma splitWordsAux_word :
    ∀ (w : List Char), ' ' ∉ w → w ≠ [] →
      ∀ (acc : List Char), splitWordsAux acc w = [acc.reverse ++ w] := by
  intro w
  induction w with
  | nil => intro _ hw; exact absurd rfl hw
  | cons c cs ih =>
    intro hsp _ acc
    have hc : ¬ c = ' ' := fun h => hsp (h ▸ List.mem_cons_self c cs)
    cases cs with
    | nil =>
      rw [splitWordsAux_cons_ne c hc]
      simp [splitWordsAux]
    | cons d ds =>
      have hsp2 : ' ' ∉ d :: ds := fun h => hsp (List.mem_cons_of_mem c h)
      rw [splitWordsAux_cons_ne c hc]
      rw [ih hsp2 (List.cons_ne_nil d ds) (c :: acc)]
      simp

lemma splitWords_joinSpace :
    ∀ (fs : List String), (∀ f ∈ fs, f.data ≠ [] ∧ ' ' ∉ f.data) →
      fs ≠ [] → splitWords (joinSpace fs).data = fs.map String.data := by
  intro fs
  induction fs with
  | nil => intro _ hne; exact absurd rfl hne
  | cons f gs ih =>
    intro hfs _
    obtain ⟨hf1, hf2⟩ := hfs f (List.mem_cons_self f gs)
    cases gs with
    | nil =>
      rw [show joinSpace [f] = f from rfl, splitWords, splitWordsAux_word f.data hf2 hf1 []]
      rfl
    | cons g gs2 =>
      have hdata : (joinSpace (f :: g :: gs2)).data =
          f.data ++ ' ' :: (joinSpace (g :: gs2)).data := by
        rw [show joinSpace (f :: g :: gs2) = f ++ " " ++ joinSpace (g :: gs2) from rfl]
        simp [String.data_append]
      rw [splitWords, hdata, splitWordsAux_word_append f.data hf2 hf1 []]
      rw [show splitWordsAux [] (joinSpace (g :: gs2)).data =
        splitWords (joinSpace (g :: gs2)).data from rfl]
      rw [ih (fun x hx => hfs x (List.mem_cons_of_mem f hx)) (List.cons_ne_nil g gs2)]
      simp

lemma map_mk_map_data (fs : List String) :
    List.map String.mk (fs.map String.data) = fs := by
  rw [List.map_map, show (String.mk ∘ String.data) = id from funext fun s => rfl, List.map_id]

lemma wordsOf_stage (fs : List String) (hne : fs ≠ [])
    (hfs : ∀ f ∈ fs, f.data ≠ [] ∧ ' ' ∉ f.data) :
    wordsOf ("git add " ++ joinSpace fs) = "git" :: "add" :: fs := by
  have hdata : ("git add " ++ joinSpace fs).data =
      'g' :: 'i' :: 't' :: ' ' :: 'a' :: 'd' :: 'd' :: ' ' :: (joinSpace fs).data := by
    rw [String.data_append]
    rfl
  rw [wordsOf, hdata]
  rw [show splitWords ('g' :: 'i' :: 't' :: ' ' :: 'a' :: 'd' :: 'd' :: ' ' ::
      (joinSpace fs).data) =
    ['g', 'i', 't'] :: ['a', 'd', 'd'] :: splitWords (joinSpace fs).data from rfl]
  rw [splitWords_joinSpace fs hfs hne]
  rw [List.map_cons, List.map_cons, map_mk_map_data]

lemma wordsOf_commitCommand (m : String) :
    wordsOf (commitCommand m) =
      "git" :: "commit" :: (splitWords ('-' :: 'm' :: ' ' :: '"' :: (m.data ++ ['"']))).map
        String.mk := by
  have hdata : (commitCommand m).data =
      'g' :: 'i' :: 't' :: ' ' :: 'c' :: 'o' :: 'm' :: 'm' :: 'i' :: 't' :: ' ' ::
        '-' :: 'm' :: ' ' :: '"' :: (m.data ++ ['"']) := by
    rw [commitCommand, String.data_append, String.data_append]
    simp
  rw [wordsOf, hdata]
  rw [show splitWords ('g' :: 'i' :: 't' :: ' ' :: 'c' :: 'o' :: 'm' :: 'm' :: 'i' :: 't' ::
      ' ' :: '-' :: 'm' :: ' ' :: '"' :: (m.data ++ ['"'])) =
    ['g', 'i', 't'] :: ['c', 'o', 'm', 'm', 'i', 't'] ::
      splitWords ('-' :: 'm' :: ' ' :: '"' :: (m.data ++ ['"'])) from rfl]
  rfl

lemma gitRun_stage (fs : List String) (hne : fs ≠ [])
    (hfs : ∀ f ∈ fs, f.data ≠ [] ∧ ' ' ∉ f.data) (st : GitRepoState) :
    gitRun ("git add " ++ joinSpace fs) st = some ("", { st with staged := fs }) := by
  rw [gitRun, wordsOf_stage fs hne hfs]
  simp [hne]

lemma gitRun_commit (m : String) (st : GitRepoState) :
    gitRun (commitCommand m) st = some ("", { st with head := st.freshHash }) := by
  rw [gitRun, wordsOf_commitCommand m]
  simp

lemma gitRun_addDot (st : GitRepoState) :
    gitRun "git add ." st = some ("", { st with staged := ["."] }) := rfl

lemma gitRun_revParse (st : GitRepoState) :
    gitRun "git rev-parse HEAD" st = some (st.head ++ "\n", st) := rfl

/-! ## Claim C6 -/

set_option maxRecDepth 8192 in
/-- C6 counterexample: a file name containing a space defeats "exactly the
named files are staged": the tool interpolates the names unquoted into one
command line (`git add ${files.join(' ')}`), so `files = ["a b"]` issues
`git add a b`, which the shell word-splits into the two pathspecs `a` and
`b` — not the single named file `"a b"`. -/
theorem c6_counterexample_filename_with_space :
    (commitChanges gitRun ⟨[], "h0", "h1"⟩ "/repo" "msg" (some ["a b"])).1.head? =
      some "git add a b" ∧
    (commitChanges gitRun ⟨[], "h0", "h1"⟩ "/repo" "msg" (some ["a b"])).2.1.staged =
      ["a", "b"] ∧
    (["a", "b"] : List String) ≠ ["a b"] := by
  refine ⟨by decide, by decide, by decide⟩

/-- C6 (amended): for a commit-changes invocation with non-empty `files`
whose names are nonempty and free of spaces, exactly the named files are
staged (and nothing else) before the commit runs; with `files` absent or
supplied as the empty array (the source's `length > 0` check routes both to
the same branch), everything is staged (`git add .`); the three shell steps
run in the order
stage, commit, HEAD-resolution; a failure of any step stops the remaining
steps and yields no hash; on success the returned hash is non-empty and
equals the repository's new HEAD. (The restriction to space-free names is
forced by the unquoted interpolation shown in the counterexample.) -/
theorem c6_commit_changes_stages_then_commits_then_resolves
    (st : GitRepoState) (repoPath message : String) (fs : List String)
    (hrp : repoPath ≠ "") (hmsg : message ≠ "") (hfs : fs ≠ [])
    (hwords : ∀ f ∈ fs, f.data ≠ [] ∧ ' ' ∉ f.data)
    (htrim : trimStr (st.freshHash ++ "\n") = st.freshHash) (hne : st.freshHash ≠ "") :
    commitChanges gitRun st repoPath message (some fs) =
      (["git add " ++ joinSpace fs, commitCommand message, "git rev-parse HEAD"],
       ⟨fs, st.freshHash, st.freshHash⟩,
       Except.ok ("Changes committed successfully.\nCommit Hash: " ++ st.freshHash)) ∧
    st.freshHash ≠ "" ∧
    commitChanges gitRun st repoPath message none =
      (["git add .", commitCommand message, "git rev-parse HEAD"],
       ⟨["."], st.freshHash, st.freshHash⟩,
       Except.ok ("Changes committed successfully.\nCommit Hash: " ++ st.freshHash)) ∧
    commitChanges gitRun st repoPath message (some []) =
      (["git add .", commitCommand message, "git rev-parse HEAD"],
       ⟨["."], st.freshHash, st.freshHash⟩,
       Except.ok ("Changes committed successfully.\nCommit Hash: " ++ st.freshHash)) ∧
    (∀ run : String → GitRepoState → Option (String × GitRepoState),
      run (stageCommand (some fs)) st = none →
      commitChanges run st repoPath message (some fs) =
        ([stageCommand (some fs)], st, Except.error "Failed to commit changes")) ∧
    (∀ (run : String → GitRepoState → Option (String × GitRepoState)) (out1 : String)
      (st1 : GitRepoState),
      run (stageCommand (some fs)) st = some (out1, st1) →
      run (commitCommand message) st1 = none →
      commitChanges run st repoPath message (some fs) =
        ([stageCommand (some fs), commitCommand message], st1,
          Except.error "Failed to commit changes")) ∧
    (∀ (run : String → GitRepoState → Option (String × GitRepoState))
      (out1 out2 : String) (st1 st2 : GitRepoState),
      run (stageCommand (some fs)) st = some (out1, st1) →
      run (commitCommand message) st1 = some (out2, st2) →
      run "git rev-parse HEAD" st2 = none →
      commitChanges run st repoPath message (some fs) =
        ([stageCommand (some fs), commitCommand message, "git rev-parse HEAD"], st2,
          Except.error "Failed to commit changes")) := by
  have hv : ¬ (repoPath = "" ∨ message = "") := by
    rintro (hc | hc)
    · exact hrp hc
    · exact hmsg hc
  have hstage : stageCommand (some fs) = "git add " ++ joinSpace fs := by
    rw [stageCommand, if_pos (List.length_pos.mpr hfs)]
  have hstage0 : stageCommand (some []) = "git add ." := rfl
  refine ⟨?_, hne, ?_, ?_, ?_, ?_, ?_⟩
  · simp only [commitChanges, if_neg hv, hstage, gitRun_stage fs hfs hwords st,
      gitRun_commit message, gitRun_revParse, htrim]
  · simp only [commitChanges, if_neg hv, stageCommand, gitRun_addDot st,
      gitRun_commit message, gitRun_revParse, htrim]
  · simp only [commitChanges, if_neg hv, hstage0, gitRun_addDot st,
      gitRun_commit message, gitRun_revParse, htrim]
  · intro run h1
    simp only [commitChanges, if_neg hv, h1]
  · intro run out1 st1 h1 h2
    simp only [commitChanges, if_neg hv, h1, h2]
  · intro run out1 out2 st1 st2 h1 h2 h3
    simp only [commitChanges, if_neg hv, h1, h2, h3]

theorem c6_commit_changes_stages_then_commits_then_resolves_witness :
    commitChanges gitRun ⟨[], "h0", "abc"⟩ "/repo" "fix bug" (some ["a.txt"]) =
      (["git add a.txt", "git commit -m \"fix bug\"", "git rev-parse HEAD"],
       ⟨["a.txt"], "abc", "abc"⟩,
       Except.ok "Changes committed successfully.\nCommit Hash: abc") ∧
    commitChanges gitRun ⟨[], "h0", "abc"⟩ "/repo" "fix bug" (some []) =
      (["git add .", "git commit -m \"fix bug\"", "git rev-parse HEAD"],
       ⟨["."], "abc", "abc"⟩,
       Except.ok "Changes committed successfully.\nCommit Hash: abc") := by
  have h := c6_commit_changes_stages_then_commits_then_resolves
    ⟨[], "h0", "abc"⟩ "/repo" "fix bug" ["a.txt"] (by decide) (by decide) (by decide)
    (by decide) (by decide) (by decide)
  exact ⟨h.1.trans (by decide), h.2.2.2.1.trans (by decide)⟩

end GithubCommitMcp
